import Mathlib

/-!
Shallow embedding of the email-lifecycle and expiration-tracking store of
EMAIL BUDDY/script.js (class EmailDispenser), together with proofs about the
claims of the specification.

Modelling conventions:
- Timestamps are rational numbers of milliseconds (JS Date values); durations
  in hours are rationals.  JS arithmetic on these quantities is exact for the
  magnitudes involved, so ℚ is the idealisation used throughout.
- The in-memory array this.emailDatabase is a List, the localStorage record
  emailDatabase_<deviceId> is an Option (List EmailEntry) (none = key absent,
  as after removeItem; some db = the serialized collection).
- DOM rendering and toasts are abstracted to Boolean outcome flags where a
  claim mentions them.
- parseFloat results are Option ℚ (none = NaN, i.e. non-numeric input).
-/

/-- One element of this.emailDatabase as built by saveEmailWithExpiration
(script.js 117-134): fields email, date (creation stamp), expiration
(null = manual deletion only) and messages (last observed count). -/
structure EmailEntry where
  email : String
  date : ℚ
  expiration : Option ℚ
  messages : Nat
deriving DecidableEq

/-- The dispenser state touched by the store claims: this.currentEmail,
this.emailDatabase and the localStorage record for the collection. -/
@[ext]
structure Store where
  currentEmail : String
  emailDatabase : List EmailEntry
  persisted : Option (List EmailEntry)
deriving DecidableEq

/-- The initial state of a fresh EmailDispenser before loadFromLocalStorage:
empty selection, empty database (constructor, script.js 3-5). -/
def emptyStore : Store := { currentEmail := "", emailDatabase := [], persisted := none }

/-- saveToLocalStorage (script.js 146-152): serializes this.emailDatabase
into the localStorage record. -/
def saveToLocalStorage (s : Store) : Store :=
  { s with persisted := some s.emailDatabase }

/-- The expiry test of checkExpirations (script.js 587-588): an entry is
expired at time now when its expiration stamp is non-null and ≤ now. -/
def expiredB (now : ℚ) (e : EmailEntry) : Bool :=
  match e.expiration with
  | none => false
  | some t => decide (t ≤ now)

/-- checkExpirations (script.js 581-599): filters out expired entries;
persists (saveToLocalStorage) exactly when some entry was removed.  This is
the spec's sweepExpired(now). -/
def checkExpirations (now : ℚ) (s : Store) : Store :=
  let changed := s.emailDatabase.any (expiredB now)
  let db := s.emailDatabase.filter (fun e => !expiredB now e)
  if changed = true then { s with emailDatabase := db, persisted := some db }
  else { s with emailDatabase := db }

/-- saveEmailWithExpiration (script.js 117-134): appends a new entry for
this.currentEmail.  The JS `hours ? ... : null` is falsy for null and 0, so
a 0-hour argument also yields a null expiration; otherwise the stamp is
Date.now() + hours*3600000.  Ends with saveToLocalStorage. -/
def saveEmailWithExpiration (hours : Option ℚ) (now : ℚ) (s : Store) : Store :=
  let expirationTime : Option ℚ :=
    match hours with
    | none => none
    | some h => if h = 0 then none else some (now + h * 3600000)
  let db := s.emailDatabase ++ [{ email := s.currentEmail, date := now,
                                  expiration := expirationTime, messages := 0 }]
  { s with emailDatabase := db, persisted := some db }

/-- saveCustomExpiration (script.js 101-115): time is parseFloat of the text
input (none = NaN).  `if (!time || time <= 0)` shows an error toast and
returns without mutating; otherwise commits time*unit hours.  The Bool is
true when a commit happened, false on the InvalidPolicy early return. -/
def saveCustomExpiration (time : Option ℚ) (unit : ℚ) (now : ℚ) (s : Store) :
    Store × Bool :=
  match time with
  | none => (s, false)
  | some t =>
      if t ≤ 0 then (s, false)
      else (saveEmailWithExpiration (some (t * unit)) now s, true)

/-- loadFromLocalStorage (script.js 136-144): reads the record (none = key
absent), and `stored ? JSON.parse(stored) : []` guarded by try/catch; a
parse failure (jsonParse returns error) is caught and resets the collection
to [].  Total by construction: no exception reaches the caller. -/
def loadFromLocalStorage (stored : Option String)
    (jsonParse : String → Except String (List EmailEntry)) : List EmailEntry :=
  match stored with
  | none => []
  | some str =>
      if str = "" then []
      else
        match jsonParse str with
        | Except.ok db => db
        | Except.error _ => []

/-- The mutation step of updateMessageCount / checkMail (script.js 528-535,
169-175): findIndex locates the first entry with the given address and its
messages field is overwritten in place.  Recursive rendering of that
index-based in-place assignment. -/
def setMessagesFirst (addr : String) (count : Nat) : List EmailEntry → List EmailEntry
  | [] => []
  | e :: rest =>
      if e.email = addr then { e with messages := count } :: rest
      else e :: setMessagesFirst addr count rest

/-- updateMessageCount (script.js 528-535): `index !== -1` guards the
mutation; when no entry matches this.currentEmail nothing happens (no save,
no error), otherwise the first match is updated and saveToLocalStorage runs.
This is the spec's recordMessageCount for address = currentEmail. -/
def updateMessageCount (count : Nat) (s : Store) : Store :=
  if s.emailDatabase.any (fun e => e.email == s.currentEmail) then
    let db := setMessagesFirst s.currentEmail count s.emailDatabase
    { s with emailDatabase := db, persisted := some db }
  else s

/-- deleteEmailFromDB (script.js 449-454): splice(index, 1) removes the
entry at the given position (no-op past the end), then saveToLocalStorage. -/
def deleteEmailFromDB (i : Nat) (s : Store) : Store :=
  let db := s.emailDatabase.eraseIdx i
  { s with emailDatabase := db, persisted := some db }

/-- clearDatabase (script.js 456-463): once the confirm dialog is accepted,
empties this.emailDatabase and calls localStorage.removeItem on the record
(it does not write a serialized empty collection). -/
def clearDatabase (confirmed : Bool) (s : Store) : Store :=
  if confirmed then { s with emailDatabase := [], persisted := none }
  else s

/-- JS fmod `x % y` for the nonnegative operands occurring in
formatTimeLeft: x - y * ⌊x / y⌋ (trunc and floor agree for x ≥ 0, y > 0). -/
def jsFmod (x y : ℚ) : ℚ := x - y * ⌊x / y⌋

/-- formatTimeLeft (script.js 399-426): buckets a fractional hours-remaining
value into one display string per band; negative input is the literal
"Expired"; below one minute the seconds count is clamped by
Math.max(1, Math.floor(...)). -/
def formatTimeLeft (totalHours : ℚ) : String :=
  if totalHours < 0 then "Expired"
  else if totalHours < 1/60 then
    toString (max 1 ⌊totalHours * 3600⌋) ++ "s"
  else if totalHours < 1 then
    toString ⌊totalHours * 60⌋ ++ "m " ++ toString ⌊jsFmod (totalHours * 3600) 60⌋ ++ "s"
  else if totalHours < 24 then
    toString ⌊totalHours⌋ ++ "h " ++ toString ⌊jsFmod totalHours 1 * 60⌋ ++ "m"
  else if totalHours < 168 then
    toString ⌊totalHours / 24⌋ ++ "d " ++ toString ⌊jsFmod totalHours 24⌋ ++ "h"
  else if totalHours < 730 then
    toString ⌊totalHours / 168⌋ ++ "w " ++ toString ⌊jsFmod totalHours 168 / 24⌋ ++ "d"
  else
    toString ⌊totalHours / 730⌋ ++ "mo " ++ toString ⌊jsFmod totalHours 730 / 168⌋ ++ "w"

/-- The shape of the genRandomMailbox JSON payload as generateNewEmail
inspects it: either an array of address strings or some non-array value. -/
inductive GenData where
  | arr (xs : List String)
  | nonArray
deriving DecidableEq

/-- Outcome of the fetch in generateNewEmail (script.js 52-67): the promise
rejects (networkFailure), response.ok is false (badStatus, the code throws),
response.json() rejects (badBody), or a JSON value is obtained (success). -/
inductive FetchOutcome where
  | networkFailure
  | badStatus (code : Nat)
  | badBody
  | success (data : GenData)
deriving DecidableEq

/-- Observable result of generateNewEmail: the state afterwards, whether the
catch branch showed the 'Failed to generate email' toast, and whether the
expiration dialog was opened. -/
structure GenResult where
  store : Store
  errorToast : Bool
  dialogShown : Bool
deriving DecidableEq

/-- generateNewEmail (script.js 52-67): thrown errors land in catch (toast);
a nonempty array sets this.currentEmail to data[0] and opens the dialog; an
empty array or non-array JSON falls through the if with no action at all. -/
def generateNewEmail (outcome : FetchOutcome) (s : Store) : GenResult :=
  match outcome with
  | FetchOutcome.networkFailure => { store := s, errorToast := true, dialogShown := false }
  | FetchOutcome.badStatus _ => { store := s, errorToast := true, dialogShown := false }
  | FetchOutcome.badBody => { store := s, errorToast := true, dialogShown := false }
  | FetchOutcome.success (GenData.arr (x :: _)) =>
      { store := { s with currentEmail := x }, errorToast := false, dialogShown := true }
  | FetchOutcome.success (GenData.arr []) => { store := s, errorToast := false, dialogShown := false }
  | FetchOutcome.success GenData.nonArray => { store := s, errorToast := false, dialogShown := false }

/-- A message summary as returned by getMessages; only id drives the
notification delta, sender and subject feed the notification text. -/
structure Message where
  id : Nat
  sender : String
  subject : String
deriving DecidableEq

/-- Reading this.lastCheckedMessages (script.js 181): Map.get of the per
address SeenSet, defaulting to the empty set when the address is unknown. -/
def lookupSeen (seen : List (String × List Nat)) (addr : String) : List Nat :=
  match seen.find? (fun p => p.1 == addr) with
  | some p => p.2
  | none => []

/-- Map.set on this.lastCheckedMessages (script.js 185-188): rebinds the
address to the given id set and keeps every other binding. -/
def setSeen (seen : List (String × List Nat)) (addr : String) (ids : List Nat) :
    List (String × List Nat) :=
  (addr, ids) :: seen.filter (fun p => p.1 != addr)

/-- The notification delta step of checkMail (script.js 180-191): messages
whose id is absent from the prior SeenSet are new, and the SeenSet for the
address is then replaced wholesale by the freshly fetched id set. -/
def pollNewMessages (seen : List (String × List Nat)) (addr : String)
    (msgs : List Message) : List Message × List (String × List Nat) :=
  let lastChecked := lookupSeen seen addr
  let newMessages := msgs.filter (fun m => !(lastChecked.contains m.id))
  (newMessages, setSeen seen addr (msgs.map Message.id))

/-- The store mutations of the spec's contract, as the code implements them.
commit and recordCount first select the address as this.currentEmail, the
way the UI flow does before saveEmailWithExpiration / updateMessageCount
run. -/
inductive StoreOp where
  | commit (addr : String) (hours : Option ℚ) (now : ℚ)
  | recordCount (addr : String) (count : Nat)
  | sweep (now : ℚ)
  | deleteIdx (i : Nat)
  | clearAll (confirmed : Bool)
deriving DecidableEq

/-- One store operation applied to a state. -/
def applyOp : StoreOp → Store → Store
  | StoreOp.commit addr hours now, s =>
      saveEmailWithExpiration hours now { s with currentEmail := addr }
  | StoreOp.recordCount addr count, s =>
      updateMessageCount count { s with currentEmail := addr }
  | StoreOp.sweep now, s => checkExpirations now s
  | StoreOp.deleteIdx i, s => deleteEmailFromDB i s
  | StoreOp.clearAll c, s => clearDatabase c s

/-- A sequence of store operations applied left to right. -/
def runOps : List StoreOp → Store → Store
  | [], s => s
  | op :: rest, s => runOps rest (applyOp op s)

/-- Freshness of one operation: a commit must use an address that is not
live in the current state; every other operation is unconstrained. -/
def opFreshB : StoreOp → Store → Bool
  | StoreOp.commit addr _ _, s => s.emailDatabase.all (fun e => e.email != addr)
  | _, _ => true

/-- Freshness of a whole operation sequence against the evolving state. -/
def opsFreshB : List StoreOp → Store → Bool
  | [], _ => true
  | op :: rest, s => opFreshB op s && opsFreshB rest (applyOp op s)

/-- The spec's uniqueness invariant: address is unique among live entries. -/
def UniqueAddrs (s : Store) : Prop :=
  (s.emailDatabase.map EmailEntry.email).Nodup

instance decidableUniqueAddrs (s : Store) : Decidable (UniqueAddrs s) :=
  inferInstanceAs (Decidable (s.emailDatabase.map EmailEntry.email).Nodup)

/-- The one-entry store used to refute the "same or later now" half of C1. -/
def c1Store : Store := ⟨"", [⟨"a@x.io", 0, some 5, 0⟩], none⟩

/-- The concrete operation sequence of the C9 witness: two fresh commits,
a sweep, a poll update, a delete and a declined clear. -/
def c9Ops : List StoreOp :=
  [StoreOp.commit "a@x.io" none 0, StoreOp.commit "b@x.io" none 0,
   StoreOp.sweep 5, StoreOp.recordCount "a@x.io" 2, StoreOp.deleteIdx 0,
   StoreOp.clearAll false]

/- Helper lemmas -/

theorem checkExpirations_db (now : ℚ) (s : Store) :
    (checkExpirations now s).emailDatabase
      = s.emailDatabase.filter (fun e => !expiredB now e) := by
  by_cases h : s.emailDatabase.any (expiredB now) = true <;> simp [checkExpirations, h]

theorem checkExpirations_currentEmail (now : ℚ) (s : Store) :
    (checkExpirations now s).currentEmail = s.currentEmail := by
  by_cases h : s.emailDatabase.any (expiredB now) = true <;> simp [checkExpirations, h]

theorem checkExpirations_of_any_false (now : ℚ) (s : Store)
    (h : s.emailDatabase.any (expiredB now) = false) :
    checkExpirations now s
      = { s with emailDatabase := s.emailDatabase.filter (fun e => !expiredB now e) } := by
  simp [checkExpirations, h]

theorem expiredB_eq_false_iff (now : ℚ) (e : EmailEntry) :
    expiredB now e = false ↔ ∀ t : ℚ, e.expiration = some t → now < t := by
  unfold expiredB
  cases h : e.expiration with
  | none => simp
  | some t => simp [not_le]

/-- Claim C1 (amended): for every store state and time now, checkExpirations
(the spec's sweepExpired) keeps exactly the entries whose expiration is null
or strictly later than now — so it removes exactly the non-null expirations
that are ≤ now — and it is idempotent for the same now: a second call with
the same now and no intervening commits changes nothing. -/
theorem checkExpirations_exact_and_idempotent (now : ℚ) (s : Store) :
    (∀ e : EmailEntry, e ∈ (checkExpirations now s).emailDatabase ↔
        e ∈ s.emailDatabase ∧ ∀ t : ℚ, e.expiration = some t → now < t)
    ∧ checkExpirations now (checkExpirations now s) = checkExpirations now s := by
  have hdb := checkExpirations_db now s
  constructor
  · intro e
    rw [hdb, List.mem_filter]
    simp [expiredB_eq_false_iff]
  · have hany : (checkExpirations now s).emailDatabase.any (expiredB now) = false := by
      rw [hdb]
      simp only [List.any_eq_false]
      intro e he
      simpa using (List.mem_filter.mp he).2
    have hfix : (checkExpirations now s).emailDatabase.filter (fun e => !expiredB now e)
        = (checkExpirations now s).emailDatabase := by
      apply List.filter_eq_self.mpr
      intro e he
      rw [hdb] at he
      exact (List.mem_filter.mp he).2
    rw [checkExpirations_of_any_false _ _ hany]
    ext1 <;> simp [hfix]

/-- Claim C1 counterexample: sweeping at a strictly later now can remove
entries that a first sweep kept, so idempotence with "the same or a later
now" fails as stated.  The entry of c1Store expires at time 5: a sweep at
time 0 keeps it, a following sweep at time 10 removes it. -/
theorem checkExpirations_later_now_removes_more :
    (checkExpirations 10 (checkExpirations 0 c1Store)).emailDatabase
      ≠ (checkExpirations 0 c1Store).emailDatabase := by
  decide

/-- Claim C2 (amended): formatTimeLeft yields "1h 15m" at 1.25 hours and
"1m 0s" at 1/60 hours, and "Expired" for every negative input; but 200
hours falls in the week band (the day+hour band ends at 168 hours), so the
result is "1w 1d", not the day+hour form "8d 8h" the claim expects. -/
theorem formatTimeLeft_bucket_points :
    formatTimeLeft (5/4) = "1h 15m"
    ∧ formatTimeLeft (1/60) = "1m 0s"
    ∧ formatTimeLeft 200 = "1w 1d"
    ∧ ∀ h : ℚ, h < 0 → formatTimeLeft h = "Expired" := by
  refine ⟨?_, ?_, ?_, ?_⟩
  · norm_num [formatTimeLeft, jsFmod]
    rfl
  · norm_num [formatTimeLeft, jsFmod]
    rfl
  · norm_num [formatTimeLeft, jsFmod]
    rfl
  · intro h hneg
    unfold formatTimeLeft
    rw [if_pos hneg]

/-- Claim C2 witness: the universally quantified negative branch at the
concrete input -3. -/
theorem formatTimeLeft_bucket_points_witness :
    (-3 : ℚ) < 0 ∧ formatTimeLeft (-3) = "Expired" :=
  ⟨by norm_num, formatTimeLeft_bucket_points.2.2.2 (-3) (by norm_num)⟩

/-- Claim C2 counterexample: at 200 hours-remaining the code renders the
week+day bucket "1w 1d", not the day+hour form "8d 8h" stated by the spec
(200 = 8*24 + 8, but the day+hour band only covers inputs below 168). -/
theorem formatTimeLeft_200_ne_8d8h : formatTimeLeft 200 ≠ "8d 8h" := by
  norm_num [formatTimeLeft, jsFmod]
  decide

/-- Claim C10: for every nonnegative hours-remaining below one minute the
result is the seconds-only string rendered from Math.max(1, floor(h*3600)),
whose count is at least 1 (never "0s"); in particular at exactly zero the
result is "1s", not "Expired". -/
theorem formatTimeLeft_subminute_clamp :
    (∀ h : ℚ, 0 ≤ h → h < 1/60 →
        1 ≤ max 1 ⌊h * 3600⌋
        ∧ formatTimeLeft h = toString (max 1 ⌊h * 3600⌋) ++ "s")
    ∧ formatTimeLeft 0 = "1s" := by
  constructor
  · intro h h0 hlt
    refine ⟨le_max_left _ _, ?_⟩
    unfold formatTimeLeft
    rw [if_neg (not_lt.mpr h0), if_pos hlt]
  · norm_num [formatTimeLeft]
    rfl

/-- Claim C10 witness: the sub-minute branch at the concrete input 1/120
hours (half a minute, rendered through the clamp term as "30s"), with the
hypotheses discharged concretely. -/
theorem formatTimeLeft_subminute_clamp_witness :
    0 ≤ (1/120 : ℚ) ∧ (1/120 : ℚ) < 1/60
    ∧ formatTimeLeft (1/120) = toString (max 1 ⌊(1/120 : ℚ) * 3600⌋) ++ "s" :=
  ⟨by norm_num, by norm_num,
    (formatTimeLeft_subminute_clamp.1 (1/120) (by norm_num) (by norm_num)).2⟩

/-- Claim C3: for every store state, saveCustomExpiration with a magnitude
that is non-numeric (parseFloat gave NaN, modelled as none) or non-positive
takes the InvalidPolicy early return: no commit happens and the store —
entry collection and persisted record alike — is returned unchanged. -/
theorem saveCustomExpiration_rejects_invalid (time : Option ℚ) (unit now : ℚ)
    (s : Store) (hbad : ∀ t : ℚ, time = some t → t ≤ 0) :
    saveCustomExpiration time unit now s = (s, false) := by
  cases time with
  | none => rfl
  | some t => simp [saveCustomExpiration, hbad t rfl]

/-- Claim C3 witness: the concrete magnitudes 0 and -5 of the spec are both
rejected on the empty store. -/
theorem saveCustomExpiration_rejects_invalid_witness :
    saveCustomExpiration (some 0) 1 0 emptyStore = (emptyStore, false)
    ∧ saveCustomExpiration (some (-5)) 24 0 emptyStore = (emptyStore, false) :=
  ⟨saveCustomExpiration_rejects_invalid (some 0) 1 0 emptyStore
      (by intro t ht; cases ht; norm_num),
    saveCustomExpiration_rejects_invalid (some (-5)) 24 0 emptyStore
      (by intro t ht; cases ht; norm_num)⟩

/-- Claim C4: loadFromLocalStorage is total (the try/catch never lets a
parse error escape: in the embedding it returns a plain list for every
stored value and every parse function), it yields the empty collection when
the record is absent, and it yields the empty collection whenever the parse
of the stored string fails. -/
theorem loadFromLocalStorage_safe (stored : Option String)
    (jsonParse : String → Except String (List EmailEntry)) :
    (stored = none → loadFromLocalStorage stored jsonParse = [])
    ∧ (∀ str msg, stored = some str → jsonParse str = Except.error msg →
        loadFromLocalStorage stored jsonParse = []) := by
  constructor
  · intro h
    subst h
    rfl
  · intro str msg hs hp
    subst hs
    by_cases he : str = ""
    · simp [loadFromLocalStorage, he]
    · simp [loadFromLocalStorage, he, hp]

/-- Claim C4 witness: a concrete corrupted record ("garbage", whose parse
fails with a SyntaxError) restores to the empty collection. -/
theorem loadFromLocalStorage_safe_witness :
    loadFromLocalStorage (some "garbage") (fun _ => Except.error "SyntaxError") = [] :=
  (loadFromLocalStorage_safe (some "garbage")
      (fun _ => Except.error "SyntaxError")).2 "garbage" "SyntaxError" rfl rfl

theorem setMessagesFirst_map_email (addr : String) (count : Nat)
    (l : List EmailEntry) :
    (setMessagesFirst addr count l).map EmailEntry.email = l.map EmailEntry.email := by
  induction l with
  | nil => rfl
  | cons e rest ih =>
      unfold setMessagesFirst
      by_cases h : e.email = addr
      · rw [if_pos h]
        simp
      · rw [if_neg h]
        simp [ih]

theorem setMessagesFirst_hits (addr : String) (count : Nat) (l : List EmailEntry)
    (h : ∃ e ∈ l, e.email = addr) :
    ∃ e ∈ setMessagesFirst addr count l, e.email = addr ∧ e.messages = count := by
  induction l with
  | nil => simp at h
  | cons e rest ih =>
      unfold setMessagesFirst
      by_cases he : e.email = addr
      · rw [if_pos he]
        exact ⟨{ e with messages := count }, List.mem_cons_self _ _, he, rfl⟩
      · rw [if_neg he]
        obtain ⟨e', he', ha⟩ := h
        rcases List.mem_cons.mp he' with rfl | hmem
        · exact absurd ha he
        · obtain ⟨f, hf, hfa, hfc⟩ := ih ⟨e', hmem, ha⟩
          exact ⟨f, List.mem_cons_of_mem _ hf, hfa, hfc⟩

/-- Claim C5: updateMessageCount (the spec's recordMessageCount at
address = currentEmail) is a safe no-op when no live entry carries the
address — the whole state, persisted record included, is returned unchanged
and nothing is thrown (the embedding is total) — and when a matching entry
exists it rewrites only that entry's messages field (the address column is
untouched), sets it to the given count, and persists the new collection. -/
theorem updateMessageCount_spec (count : Nat) (s : Store) :
    ((∀ e ∈ s.emailDatabase, e.email ≠ s.currentEmail) →
        updateMessageCount count s = s)
    ∧ ((∃ e ∈ s.emailDatabase, e.email = s.currentEmail) →
        (updateMessageCount count s).emailDatabase.map EmailEntry.email
            = s.emailDatabase.map EmailEntry.email
        ∧ (∃ e ∈ (updateMessageCount count s).emailDatabase,
            e.email = s.currentEmail ∧ e.messages = count)
        ∧ (updateMessageCount count s).persisted
            = some (updateMessageCount count s).emailDatabase) := by
  constructor
  · intro h
    have hnot : ¬ s.emailDatabase.any (fun e => e.email == s.currentEmail) = true := by
      simp only [List.any_eq_true, beq_iff_eq]
      rintro ⟨e, he, heq⟩
      exact h e he heq
    unfold updateMessageCount
    rw [if_neg hnot]
  · intro h
    have hany : s.emailDatabase.any (fun e => e.email == s.currentEmail) = true := by
      simp only [List.any_eq_true, beq_iff_eq]
      exact h
    unfold updateMessageCount
    rw [if_pos hany]
    exact ⟨setMessagesFirst_map_email _ _ _, setMessagesFirst_hits _ _ _ h, rfl⟩

/-- Claim C5 witness: on a store whose single entry holds a@x.io while the
selected address is the absent b@x.io, updateMessageCount leaves the state
untouched. -/
theorem updateMessageCount_spec_witness :
    updateMessageCount 7 ⟨"b@x.io", [⟨"a@x.io", 0, none, 0⟩], none⟩
      = ⟨"b@x.io", [⟨"a@x.io", 0, none, 0⟩], none⟩ :=
  (updateMessageCount_spec 7 _).1 (by decide)

/-- Claim C6 (amended): in generateNewEmail every thrown failure of the
remote call (network rejection, non-ok HTTP status, unparseable body) lands
in the catch branch, which surfaces the error toast and leaves the state
untouched; but a call that succeeds with an empty array or a non-array value
is silently ignored — no toast, no dialog, state untouched.  In every case,
success included, the entry collection and the persisted record are left
exactly as they were. -/
theorem generateNewEmail_spec (outcome : FetchOutcome) (s : Store) :
    ((outcome = FetchOutcome.networkFailure
        ∨ (∃ c, outcome = FetchOutcome.badStatus c)
        ∨ outcome = FetchOutcome.badBody) →
      (generateNewEmail outcome s).store = s
      ∧ (generateNewEmail outcome s).errorToast = true)
    ∧ ((outcome = FetchOutcome.success (GenData.arr [])
        ∨ outcome = FetchOutcome.success GenData.nonArray) →
      generateNewEmail outcome s = { store := s, errorToast := false, dialogShown := false })
    ∧ (generateNewEmail outcome s).store.emailDatabase = s.emailDatabase
    ∧ (generateNewEmail outcome s).store.persisted = s.persisted := by
  refine ⟨?_, ?_, ?_, ?_⟩
  · rintro (rfl | ⟨c, rfl⟩ | rfl) <;> exact ⟨rfl, rfl⟩
  · rintro (rfl | rfl) <;> rfl
  · cases outcome with
    | success data => cases data with
        | arr xs => cases xs <;> rfl
        | nonArray => rfl
    | networkFailure => rfl
    | badStatus c => rfl
    | badBody => rfl
  · cases outcome with
    | success data => cases data with
        | arr xs => cases xs <;> rfl
        | nonArray => rfl
    | networkFailure => rfl
    | badStatus c => rfl
    | badBody => rfl

/-- Claim C6 witness: a network failure on the empty store keeps the state
and surfaces the toast. -/
theorem generateNewEmail_spec_witness :
    (generateNewEmail FetchOutcome.networkFailure emptyStore).store = emptyStore
    ∧ (generateNewEmail FetchOutcome.networkFailure emptyStore).errorToast = true :=
  (generateNewEmail_spec FetchOutcome.networkFailure emptyStore).1 (Or.inl rfl)

/-- Claim C6 counterexample: when the remote call succeeds with an empty
array, the claimed user-visible failure is never surfaced — the error toast
stays off (and no dialog opens): the code's `if (Array.isArray(data) &&
data.length > 0)` simply falls through with no else branch. -/
theorem generateNewEmail_empty_result_silent :
    (generateNewEmail (FetchOutcome.success (GenData.arr [])) emptyStore).errorToast
      = false := by
  rfl

/-- Claim C7: the notification delta of checkMail keeps exactly the fetched
messages whose id is absent from the prior SeenSet (so the id set of the
delta is the fresh id set minus the prior one), and afterwards the SeenSet
stored for the address is exactly the freshly fetched id set — a wholesale
replacement, not a merge. -/
theorem pollNewMessages_delta_spec (seen : List (String × List Nat))
    (addr : String) (msgs : List Message) :
    (∀ m : Message, m ∈ (pollNewMessages seen addr msgs).1 ↔
        m ∈ msgs ∧ m.id ∉ lookupSeen seen addr)
    ∧ (∀ i : Nat, i ∈ (pollNewMessages seen addr msgs).1.map Message.id ↔
        i ∈ msgs.map Message.id ∧ i ∉ lookupSeen seen addr)
    ∧ lookupSeen (pollNewMessages seen addr msgs).2 addr = msgs.map Message.id := by
  have hmem : ∀ m : Message, m ∈ (pollNewMessages seen addr msgs).1 ↔
      m ∈ msgs ∧ m.id ∉ lookupSeen seen addr := by
    intro m
    unfold pollNewMessages
    rw [List.mem_filter]
    simp [List.contains]
  refine ⟨hmem, ?_, ?_⟩
  · intro i
    constructor
    · intro hi
      obtain ⟨m, hm, rfl⟩ := List.mem_map.mp hi
      obtain ⟨hmsg, hnot⟩ := (hmem m).mp hm
      exact ⟨List.mem_map.mpr ⟨m, hmsg, rfl⟩, hnot⟩
    · rintro ⟨hi, hnot⟩
      obtain ⟨m, hm, rfl⟩ := List.mem_map.mp hi
      exact List.mem_map.mpr ⟨m, (hmem m).mpr ⟨hm, hnot⟩, rfl⟩
  · unfold pollNewMessages setSeen lookupSeen
    simp

/-- Claim C8 (amended): once confirmed, clearDatabase empties the entry
collection and deletes the persisted record outright (removeItem) — it does
not skip persistence, but neither does it write a serialized empty
collection; a subsequent restore of the now-absent record yields the empty
collection, whatever the parse function. -/
theorem clearDatabase_spec (s : Store)
    (jsonParse : String → Except String (List EmailEntry)) :
    (clearDatabase true s).emailDatabase = []
    ∧ (clearDatabase true s).persisted = none
    ∧ loadFromLocalStorage none jsonParse = [] :=
  ⟨rfl, rfl, rfl⟩

/-- Claim C8 counterexample: on a store whose record holds one entry,
clearDatabase leaves the persisted record absent (none), not rewritten to a
serialized empty collection (some []), refuting "persists by writing an
empty collection to the persisted record" as stated. -/
theorem clearDatabase_removes_record_not_empty_write :
    (clearDatabase true ⟨"a@x.io", [⟨"a@x.io", 0, none, 0⟩],
        some [⟨"a@x.io", 0, none, 0⟩]⟩).persisted ≠ some [] := by
  decide

theorem uniqueAddrs_commit (addr : String) (hours : Option ℚ) (now : ℚ)
    (s : Store) (hfresh : opFreshB (StoreOp.commit addr hours now) s = true)
    (h : UniqueAddrs s) : UniqueAddrs (applyOp (StoreOp.commit addr hours now) s) := by
  have hnot : addr ∉ s.emailDatabase.map EmailEntry.email := by
    simp only [opFreshB, List.all_eq_true, bne_iff_ne] at hfresh
    simp only [List.mem_map]
    rintro ⟨e, he, heq⟩
    exact hfresh e he heq
  show UniqueAddrs (saveEmailWithExpiration hours now { s with currentEmail := addr })
  unfold UniqueAddrs saveEmailWithExpiration
  simp only [List.map_append, List.map_cons, List.map_nil]
  rw [List.nodup_append]
  refine ⟨h, List.nodup_singleton _, ?_⟩
  simp only [List.disjoint_singleton]
  exact hnot

theorem uniqueAddrs_recordCount (addr : String) (count : Nat) (s : Store)
    (h : UniqueAddrs s) : UniqueAddrs (applyOp (StoreOp.recordCount addr count) s) := by
  show UniqueAddrs (updateMessageCount count { s with currentEmail := addr })
  unfold UniqueAddrs updateMessageCount
  split
  · simpa [setMessagesFirst_map_email] using h
  · exact h

theorem uniqueAddrs_sweep (now : ℚ) (s : Store) (h : UniqueAddrs s) :
    UniqueAddrs (applyOp (StoreOp.sweep now) s) := by
  show UniqueAddrs (checkExpirations now s)
  unfold UniqueAddrs
  rw [checkExpirations_db]
  exact List.Nodup.sublist ((List.filter_sublist _).map EmailEntry.email) h

theorem uniqueAddrs_deleteIdx (i : Nat) (s : Store) (h : UniqueAddrs s) :
    UniqueAddrs (applyOp (StoreOp.deleteIdx i) s) := by
  show UniqueAddrs (deleteEmailFromDB i s)
  unfold UniqueAddrs deleteEmailFromDB
  exact List.Nodup.sublist ((s.emailDatabase.eraseIdx_sublist i).map EmailEntry.email) h

theorem uniqueAddrs_clearAll (c : Bool) (s : Store) (h : UniqueAddrs s) :
    UniqueAddrs (applyOp (StoreOp.clearAll c) s) := by
  show UniqueAddrs (clearDatabase c s)
  unfold UniqueAddrs clearDatabase
  cases c
  · exact h
  · simp

theorem uniqueAddrs_applyOp (op : StoreOp) (s : Store)
    (hfresh : opFreshB op s = true) (h : UniqueAddrs s) :
    UniqueAddrs (applyOp op s) := by
  cases op with
  | commit addr hours now => exact uniqueAddrs_commit addr hours now s hfresh h
  | recordCount addr count => exact uniqueAddrs_recordCount addr count s h
  | sweep now => exact uniqueAddrs_sweep now s h
  | deleteIdx i => exact uniqueAddrs_deleteIdx i s h
  | clearAll c => exact uniqueAddrs_clearAll c s h

/-- Claim C9 (amended): address uniqueness is an invariant of the store
operations only under a freshness side condition on commits: every state
reached from a state with unique addresses through a sequence of commit,
recordMessageCount, sweep, delete and clear operations in which each commit
uses an address not live at that moment again has unique addresses.  The
unconditional claim fails: commit never checks for duplicates (see the
counterexample). -/
theorem uniqueAddrs_preserved_of_fresh_commits (ops : List StoreOp) (s : Store)
    (hfresh : opsFreshB ops s = true) (h : UniqueAddrs s) :
    UniqueAddrs (runOps ops s) := by
  induction ops generalizing s with
  | nil => exact h
  | cons op rest ih =>
      rw [opsFreshB, Bool.and_eq_true] at hfresh
      exact ih (applyOp op s) hfresh.2 (uniqueAddrs_applyOp op s hfresh.1 h)

/-- Claim C9 witness: the freshness side condition and the initial
invariant hold concretely for c9Ops from the empty store, and the theorem
yields uniqueness of the resulting state. -/
theorem uniqueAddrs_preserved_of_fresh_commits_witness :
    opsFreshB c9Ops emptyStore = true ∧ UniqueAddrs emptyStore
    ∧ UniqueAddrs (runOps c9Ops emptyStore) :=
  ⟨by decide, by decide,
    uniqueAddrs_preserved_of_fresh_commits c9Ops emptyStore (by decide) (by decide)⟩

/-- Claim C9 counterexample: committing the same address twice from the
empty store — saveEmailWithExpiration pushes unconditionally, with no
duplicate check — produces two live entries with equal addresses, so the
claimed invariant fails on reachable states. -/
theorem commit_duplicate_breaks_uniqueness :
    ¬ UniqueAddrs (runOps
        [StoreOp.commit "a@x.io" none 0, StoreOp.commit "a@x.io" none 0]
        emptyStore) := by
  decide
